import Mathlib

/-!
Verification of the synchronized scene rendering and video assembly pipeline
of the news-shorts repository.

The definitions below are a shallow embedding of the Python sources:

* `news_shorts/tts_engine.py` — `TTSEngine.generate_audio`'s word-timing
  estimation (text split on whitespace, per-word duration proportional to
  character length, running clock).
* `news_shorts/video_generator.py` — `VideoGenerator._render_scene`'s
  frame loop (Playwright command protocol, frame count, resource bracket),
  and `VideoGenerator.create_video`'s assembly and error handling.
* `news_shorts/main.py` — the output-directory handling of `run_pipeline`.

Machine reals (Python floats) are modelled as exact rationals `ℚ`; the
claims that hold exactly in rational arithmetic are the ones proved here.
-/

/-- Python's `str.split()` with no argument: split the character sequence at
every whitespace character and discard the empty pieces (so runs of
whitespace, and leading/trailing whitespace, produce no words). -/
def pySplit (s : String) : List String :=
  ((s.data.splitOnP Char.isWhitespace).filter (fun w => w ≠ [])).map String.mk

/-- One entry of the timing list built by `TTSEngine.generate_audio`:
the dict `{"word": word, "start": current_time, "end": current_time + word_dur}`.
(The Python key `end` is a Lean keyword, hence the field name `end_`.) -/
structure WordTiming where
  word : String
  start : ℚ
  end_ : ℚ
deriving Repr, DecidableEq, Inhabited

/-- The `for word in words` loop of `TTSEngine.generate_audio`: each word gets
`word_dur = (len(word) / total_chars) * duration`, appended with
`start = current_time`, `end = current_time + word_dur`, and the running clock
is advanced by `word_dur`. -/
def timingsAux (total_chars : ℕ) (duration : ℚ) : List String → ℚ → List WordTiming
  | [], _ => []
  | word :: ws, current_time =>
    let word_dur : ℚ := ((word.length : ℚ) / (total_chars : ℚ)) * duration
    ⟨word, current_time, current_time + word_dur⟩ ::
      timingsAux total_chars duration ws (current_time + word_dur)

/-- The timing-estimation part of `TTSEngine.generate_audio`, with the one
Python runtime error the pure part can raise made explicit: the division
`len(word) / total_chars` raises `ZeroDivisionError` exactly when the loop
body executes (`words ≠ []`) with `total_chars = 0`. -/
def generate_audio_timings_exc (text : String) (duration : ℚ) :
    Except String (List WordTiming) :=
  let words := pySplit text
  let total_chars := (words.map String.length).sum
  if words ≠ [] ∧ total_chars = 0 then Except.error "ZeroDivisionError"
  else Except.ok (timingsAux total_chars duration words 0)

/-- `TTSEngine.generate_audio`'s timings as returned to the caller: the method
wraps the estimation in `try/except Exception` and returns `[]` on any
exception. -/
def generate_audio_timings (text : String) (duration : ℚ) : List WordTiming :=
  match generate_audio_timings_exc text duration with
  | Except.ok ts => ts
  | Except.error _ => []

/-- The spec's formula for one word's share of the total duration:
`word_duration = (len(word) / total_chars) * total_duration`. -/
def wordShare (total_chars : ℕ) (duration : ℚ) (w : String) : ℚ :=
  ((w.length : ℚ) / (total_chars : ℚ)) * duration

/-- The running clock after the first `k` words have been allocated their
shares: the sum of the first `k` word durations. -/
def shareSum (total_chars : ℕ) (duration : ℚ) (ws : List String) (k : ℕ) : ℚ :=
  ((ws.take k).map (wordShare total_chars duration)).sum

namespace TimingLemmas

theorem timingsAux_length (tc : ℕ) (d : ℚ) :
    ∀ (ws : List String) (t : ℚ), (timingsAux tc d ws t).length = ws.length := by
  intro ws
  induction ws with
  | nil => intro t; rfl
  | cons w ws ih => intro t; simp [timingsAux, ih]

theorem shareSum_zero (tc : ℕ) (d : ℚ) (ws : List String) :
    shareSum tc d ws 0 = 0 := by
  simp [shareSum]

theorem shareSum_cons_succ (tc : ℕ) (d : ℚ) (w : String) (ws : List String) (k : ℕ) :
    shareSum tc d (w :: ws) (k + 1) = wordShare tc d w + shareSum tc d ws k := by
  simp [shareSum]

/-- The central characterization of the running-clock loop: the `i`-th timing
produced from clock `t` is the `i`-th word, starting at `t` plus the sum of
the first `i` shares and ending at `t` plus the sum of the first `i + 1`
shares. -/
theorem timingsAux_get? (tc : ℕ) (d : ℚ) :
    ∀ (ws : List String) (t : ℚ) (i : ℕ), i < ws.length →
      (timingsAux tc d ws t)[i]? =
        some ⟨ws.getD i "", t + shareSum tc d ws i, t + shareSum tc d ws (i + 1)⟩ := by
  intro ws
  induction ws with
  | nil => intro t i h; simp at h
  | cons w ws ih =>
    intro t i h
    cases i with
    | zero =>
      simp [timingsAux, shareSum_zero, shareSum_cons_succ, shareSum_zero, wordShare]
    | succ k =>
      have hk : k < ws.length := by simpa using h
      simp only [timingsAux, List.getElem?_cons_succ]
      rw [ih (t + ((w.length : ℚ) / (tc : ℚ)) * d) k hk]
      simp only [List.getD_cons_succ, shareSum_cons_succ, wordShare,
        Option.some.injEq, WordTiming.mk.injEq, true_and]
      exact ⟨by ring, by ring⟩

/-- Mapping `end - start` over the produced timings recovers the list of
per-word shares. -/
theorem timingsAux_durations (tc : ℕ) (d : ℚ) :
    ∀ (ws : List String) (t : ℚ),
      (timingsAux tc d ws t).map (fun x => x.end_ - x.start) =
        ws.map (wordShare tc d) := by
  intro ws
  induction ws with
  | nil => intro t; rfl
  | cons w ws ih =>
    intro t
    simp only [timingsAux, List.map_cons, ih]
    congr 1
    simp [wordShare]

/-- The word fields of the produced timings are the words, in order. -/
theorem timingsAux_words (tc : ℕ) (d : ℚ) :
    ∀ (ws : List String) (t : ℚ),
      (timingsAux tc d ws t).map WordTiming.word = ws := by
  intro ws
  induction ws with
  | nil => intro t; rfl
  | cons w ws ih => intro t; simp [timingsAux, ih]

/-- Summing the per-word shares gives `(Σ len) / total_chars * duration`. -/
theorem sum_map_wordShare (tc : ℕ) (d : ℚ) (ws : List String) :
    (ws.map (wordShare tc d)).sum =
      (((ws.map String.length).sum : ℚ) / (tc : ℚ)) * d := by
  induction ws with
  | nil => simp
  | cons w ws ih =>
    simp only [List.map_cons, List.sum_cons, ih, wordShare, List.map_cons,
      List.sum_cons]
    push_cast
    rw [add_div, add_mul]

/-- Every word produced by `pySplit` has at least one character (the empty
pieces between consecutive whitespace characters are filtered out). -/
theorem pySplit_length_pos {text : String} {w : String} (h : w ∈ pySplit text) :
    0 < w.length := by
  unfold pySplit at h
  obtain ⟨l, hl, rfl⟩ := List.mem_map.mp h
  have hne : l ≠ [] := by simpa using List.of_mem_filter hl
  simpa using List.length_pos.mpr hne

/-- If the word list is non-empty, the total character count is positive. -/
theorem total_chars_pos {text : String} (h : pySplit text ≠ []) :
    0 < ((pySplit text).map String.length).sum := by
  obtain ⟨w, ws, hw⟩ := List.exists_cons_of_ne_nil h
  have hmem : w ∈ pySplit text := by rw [hw]; exact List.mem_cons_self w ws
  have hlen : 0 < w.length := pySplit_length_pos hmem
  rw [hw]
  simp only [List.map_cons, List.sum_cons]
  omega

/-- When the word list is non-empty (so `total_chars ≠ 0`), the estimator's
`ZeroDivisionError` branch is not taken. -/
theorem generate_audio_timings_eq (text : String) (duration : ℚ) :
    generate_audio_timings text duration =
      timingsAux ((pySplit text).map String.length).sum duration (pySplit text) 0 := by
  unfold generate_audio_timings generate_audio_timings_exc
  by_cases h : pySplit text ≠ [] ∧ ((pySplit text).map String.length).sum = 0
  · exfalso
    have := total_chars_pos h.1
    omega
  · simp only [h, if_false]

end TimingLemmas

namespace TimingLemmas

/-- `shareSum` at `i + 1` adds the `i`-th word's share. -/
theorem shareSum_succ (tc : ℕ) (d : ℚ) (ws : List String) (i : ℕ) (h : i < ws.length) :
    shareSum tc d ws (i + 1) = shareSum tc d ws i + wordShare tc d (ws.getD i "") := by
  unfold shareSum
  rw [List.map_take, List.map_take, List.sum_take_succ _ i (by simpa using h),
    List.getElem_map, List.getD_eq_getElem ws "" h]

/-- `shareSum` over the whole word list is the full duration (when
`total_chars` is the actual total character count and is non-zero). -/
theorem shareSum_length (d : ℚ) (ws : List String)
    (h : ((ws.map String.length).sum : ℚ) ≠ 0) :
    shareSum (ws.map String.length).sum d ws ws.length = d := by
  unfold shareSum
  rw [List.take_length, sum_map_wordShare, div_self h, one_mul]

end TimingLemmas

open TimingLemmas in
/-- C1: for every text whose whitespace tokenization is non-empty and every
positive total duration, the estimator returns one `WordTiming` per word in
script order, with the first start at `0`, each timing's end equal to the next
timing's start, the last end exactly equal to the total duration (rational
arithmetic), and the individual word durations summing exactly to the total
duration. -/
theorem timing_partition (text : String) (duration : ℚ)
    (hw : pySplit text ≠ []) (hd : 0 < duration) :
    (generate_audio_timings text duration).map WordTiming.word = pySplit text ∧
    ((generate_audio_timings text duration).getD 0 default).start = 0 ∧
    (∀ i, i + 1 < (generate_audio_timings text duration).length →
      ((generate_audio_timings text duration).getD i default).end_ =
        ((generate_audio_timings text duration).getD (i + 1) default).start) ∧
    ((generate_audio_timings text duration).getD
        ((generate_audio_timings text duration).length - 1) default).end_ = duration ∧
    ((generate_audio_timings text duration).map (fun tm => tm.end_ - tm.start)).sum
      = duration := by
  have htc : 0 < ((pySplit text).map String.length).sum := total_chars_pos hw
  have htcQ : (((pySplit text).map String.length).sum : ℚ) ≠ 0 := by
    exact_mod_cast Nat.pos_iff_ne_zero.mp htc
  rw [generate_audio_timings_eq, timingsAux_length]
  set ws := pySplit text with hws
  set tc := (ws.map String.length).sum with htcdef
  have hlen : 0 < ws.length := List.length_pos.mpr hw
  refine ⟨timingsAux_words tc duration ws 0, ?_, ?_, ?_, ?_⟩
  · rw [List.getD_eq_getElem?_getD, timingsAux_get? tc duration ws 0 0 hlen]
    simp [shareSum_zero]
  · intro i hi
    have hi1 : i < ws.length := by omega
    have hi2 : i + 1 < ws.length := hi
    rw [List.getD_eq_getElem?_getD, List.getD_eq_getElem?_getD,
      timingsAux_get? tc duration ws 0 i hi1,
      timingsAux_get? tc duration ws 0 (i + 1) hi2]
    rfl
  · have hlast : ws.length - 1 < ws.length := by omega
    rw [List.getD_eq_getElem?_getD, timingsAux_get? tc duration ws 0 (ws.length - 1) hlast]
    have : ws.length - 1 + 1 = ws.length := by omega
    rw [Option.getD_some, this]
    show 0 + shareSum tc duration ws ws.length = duration
    rw [zero_add, shareSum_length duration ws htcQ]
  · rw [timingsAux_durations, sum_map_wordShare, div_self htcQ, one_mul]

/-- C1 witness: the theorem instantiated at text `"ab c"` and duration `2`. -/
theorem timing_partition_witness :
    pySplit "ab c" ≠ [] ∧ (0 : ℚ) < 2 ∧
    ((generate_audio_timings "ab c" 2).map WordTiming.word = pySplit "ab c" ∧
     ((generate_audio_timings "ab c" 2).getD 0 default).start = 0 ∧
     (∀ i, i + 1 < (generate_audio_timings "ab c" 2).length →
       ((generate_audio_timings "ab c" 2).getD i default).end_ =
         ((generate_audio_timings "ab c" 2).getD (i + 1) default).start) ∧
     ((generate_audio_timings "ab c" 2).getD
         ((generate_audio_timings "ab c" 2).length - 1) default).end_ = 2 ∧
     ((generate_audio_timings "ab c" 2).map (fun tm => tm.end_ - tm.start)).sum = 2) :=
  ⟨by decide, by norm_num, timing_partition "ab c" 2 (by decide) (by norm_num)⟩

open TimingLemmas in
/-- C2: the `i`-th timing is exactly the `i`-th word with start equal to the
running clock (the sum of the first `i` word shares), end equal to the clock
after adding this word's share `(len(word) / total_chars) * duration`, so each
word's duration equals its character-proportional share of the total. -/
theorem timing_word_share (text : String) (duration : ℚ) (i : ℕ)
    (hi : i < (generate_audio_timings text duration).length) :
    (generate_audio_timings text duration).getD i default =
      ⟨(pySplit text).getD i "",
       shareSum ((pySplit text).map String.length).sum duration (pySplit text) i,
       shareSum ((pySplit text).map String.length).sum duration (pySplit text) (i + 1)⟩ ∧
    ((generate_audio_timings text duration).getD i default).end_ -
        ((generate_audio_timings text duration).getD i default).start =
      wordShare ((pySplit text).map String.length).sum duration
        ((pySplit text).getD i "") := by
  rw [generate_audio_timings_eq] at hi ⊢
  rw [timingsAux_length] at hi
  set ws := pySplit text
  set tc := (ws.map String.length).sum
  have h := timingsAux_get? tc duration ws 0 i hi
  rw [List.getD_eq_getElem?_getD, h]
  simp only [Option.getD_some]
  constructor
  · simp
  · show (0 + shareSum tc duration ws (i + 1)) - (0 + shareSum tc duration ws i) = _
    rw [shareSum_succ tc duration ws i hi]
    ring

/-- C2 witness: the theorem instantiated at Scenario A — text
`"Breaking news today"`, duration `4`, word index `0` — plus the concrete
Scenario A values: the three word durations are `32/17 ≈ 1.882`,
`16/17 ≈ 0.941` and `20/17 ≈ 1.176` seconds, and a single-word text gets the
sole timing `[0, duration]`. -/
theorem timing_word_share_witness :
    0 < (generate_audio_timings "Breaking news today" 4).length ∧
    ((generate_audio_timings "Breaking news today" 4).getD 0 default =
      ⟨(pySplit "Breaking news today").getD 0 "",
       shareSum ((pySplit "Breaking news today").map String.length).sum 4
         (pySplit "Breaking news today") 0,
       shareSum ((pySplit "Breaking news today").map String.length).sum 4
         (pySplit "Breaking news today") 1⟩ ∧
     ((generate_audio_timings "Breaking news today" 4).getD 0 default).end_ -
         ((generate_audio_timings "Breaking news today" 4).getD 0 default).start =
       wordShare ((pySplit "Breaking news today").map String.length).sum 4
         ((pySplit "Breaking news today").getD 0 "")) ∧
    generate_audio_timings "Breaking news today" 4 =
      [⟨"Breaking", 0, 32/17⟩, ⟨"news", 32/17, 48/17⟩, ⟨"today", 48/17, 4⟩] ∧
    generate_audio_timings "hello" 7 = [⟨"hello", 0, 7⟩] := by
  refine ⟨?_, timing_word_share "Breaking news today" 4 0 ?_, ?_, ?_⟩
  · rw [TimingLemmas.generate_audio_timings_eq, TimingLemmas.timingsAux_length]
    decide
  · rw [TimingLemmas.generate_audio_timings_eq, TimingLemmas.timingsAux_length]
    decide
  · simp only [generate_audio_timings, generate_audio_timings_exc,
      show pySplit "Breaking news today" = ["Breaking", "news", "today"] from by decide,
      show "Breaking".length = 8 from rfl, show "news".length = 4 from rfl,
      show "today".length = 5 from rfl, timingsAux, List.map_cons, List.map_nil,
      List.sum_cons, List.sum_nil]
    norm_num
  · simp only [generate_audio_timings, generate_audio_timings_exc,
      show pySplit "hello" = ["hello"] from by decide,
      show "hello".length = 5 from rfl, timingsAux, List.map_cons, List.map_nil,
      List.sum_cons, List.sum_nil]
    norm_num

/-- C5 counterexample: on the all-whitespace text `"   "` the estimator does
NOT fail with an `InvalidInput` (or any other) error — it returns the empty
timing list as a normal, non-error result, because `split()` drops all
whitespace and produces no words at all. -/
theorem whitespace_text_no_error :
    generate_audio_timings_exc "   " 1 = Except.ok [] := by
  simp [generate_audio_timings_exc, show pySplit "   " = [] from by decide, timingsAux]

/-- C5 (amended): for every text whose whitespace tokenization is empty —
truly empty text and all-whitespace text alike — the estimator returns the
empty timing sequence as a non-error result; in that case the total character
count is `0`, the per-word division is never executed, and no error of any
kind is raised. -/
theorem whitespace_empty_timings (text : String) (duration : ℚ)
    (h : pySplit text = []) :
    generate_audio_timings_exc text duration = Except.ok [] ∧
    generate_audio_timings text duration = [] ∧
    ((pySplit text).map String.length).sum = 0 := by
  refine ⟨?_, ?_, ?_⟩
  · simp [generate_audio_timings_exc, h, timingsAux]
  · simp [generate_audio_timings, generate_audio_timings_exc, h, timingsAux]
  · simp [h]

/-- C5 witness: the amended theorem instantiated at the all-whitespace text
`" \t "` and duration `7`. -/
theorem whitespace_empty_timings_witness :
    pySplit " \t " = [] ∧
    (generate_audio_timings_exc " \t " 7 = Except.ok [] ∧
     generate_audio_timings " \t " 7 = [] ∧
     ((pySplit " \t ").map String.length).sum = 0) :=
  ⟨by decide, whitespace_empty_timings " \t " 7 (by decide)⟩

/-! ## SceneRenderer: `VideoGenerator._render_scene` -/

/-- Python's `int()` on a real value: truncation toward zero. -/
def pyInt (q : ℚ) : ℤ := if 0 ≤ q then ⌊q⌋ else ⌈q⌉

/-- `total_frames = int(duration * fps)` with the hard-coded `fps = 30` of
`VideoGenerator._render_scene`.  Python's `range` treats a negative count as
zero, hence the `toNat`. -/
def total_frames (duration : ℚ) : ℕ := (pyInt (duration * 30)).toNat

/-- The decimal rendering of the frame index in `f"frame_{i:04d}.png"`:
left-padded with zeros to at least four digits. -/
def pad4 (i : ℕ) : String :=
  String.mk (List.replicate (4 - (Nat.repr i).length) '0') ++ Nat.repr i

/-- `os.path.join(frames_dir, f"frame_{i:04d}.png")`. -/
def framePath (frames_dir : String) (i : ℕ) : String :=
  frames_dir ++ "/frame_" ++ pad4 i ++ ".png"

/-- The spec's `Frame` record, one per iteration of the
`for i in range(total_frames)` loop of `VideoGenerator._render_scene`:
the frame index `i`, the seek timestamp `t = i / fps`, and the raster path
the screenshot of that iteration is written to. -/
structure Frame where
  index : ℕ
  timestamp : ℚ
  raster_path : String
deriving Repr, DecidableEq, Inhabited

/-- The frame sequence produced by the loop of `VideoGenerator._render_scene`
on a failure-free run.  The injected `word_timings` are passed to the page but
never consulted for the frame count; the parameter only mirrors the call
signature. -/
def render_scene_frames (frames_dir : String) (duration : ℚ)
    (word_timings : List WordTiming) : List Frame :=
  (List.range (total_frames duration)).map
    (fun i => ⟨i, (i : ℚ) / 30, framePath frames_dir i⟩)

/-- One command issued by `VideoGenerator._render_scene` to the Playwright
page (each is an awaited, synchronously completed operation). -/
inductive RenderEvent where
  | goto (url : String)
  | setSubtitles (timings : List WordTiming)
  | waitTimeout (ms : ℕ)
  | seek (t : ℚ)
  | screenshot (index : ℕ) (path : String)
  | browserClose
deriving Repr, DecidableEq

def RenderEvent.isGoto : RenderEvent → Bool
  | .goto _ => true
  | _ => false

def RenderEvent.isSetSubtitles : RenderEvent → Bool
  | .setSubtitles _ => true
  | _ => false

def RenderEvent.isSeek : RenderEvent → Bool
  | .seek _ => true
  | _ => false

def RenderEvent.shotIndex : RenderEvent → Option ℕ
  | .screenshot i _ => some i
  | _ => none

/-- The body of the `for i in range(total_frames)` loop: for each frame index
in order, `window.seek(i / fps)` is awaited, then exactly one
`page.screenshot(...)` is awaited, before the next index is processed. -/
def frameLoop (frames_dir : String) : List ℕ → List RenderEvent
  | [] => []
  | i :: rest =>
    RenderEvent.seek ((i : ℚ) / 30) ::
      RenderEvent.screenshot i (framePath frames_dir i) ::
        frameLoop frames_dir rest

/-- The full ordered command sequence `VideoGenerator._render_scene` issues on
a failure-free run: one `page.goto(url)`, one `window.setSubtitles(timings)`
batch injection, one unconditional 500 ms warm-up wait, then the
seek/screenshot loop, then `browser.close()`.  The surface's own clock is
never left to advance on its own: every sampled instant is an explicit
`seek` argument. -/
def render_scene_events (frames_dir url : String) (duration : ℚ)
    (word_timings : List WordTiming) : List RenderEvent :=
  RenderEvent.goto url :: RenderEvent.setSubtitles word_timings ::
    RenderEvent.waitTimeout 500 ::
    (frameLoop frames_dir (List.range (total_frames duration)) ++
      [RenderEvent.browserClose])

namespace RenderLemmas

theorem pyInt_of_nonneg {q : ℚ} (h : 0 ≤ q) : pyInt q = ⌊q⌋ := by
  simp [pyInt, h]

theorem total_frames_eq_floor {duration : ℚ} (h : 0 ≤ duration) :
    (total_frames duration : ℤ) = ⌊duration * 30⌋ := by
  have h30 : (0 : ℚ) ≤ duration * 30 := by positivity
  rw [total_frames, pyInt_of_nonneg h30, Int.toNat_of_nonneg (Int.floor_nonneg.mpr h30)]

theorem frameLoop_filterMap_shot (frames_dir : String) :
    ∀ l : List ℕ,
      (frameLoop frames_dir l).filterMap RenderEvent.shotIndex = l := by
  intro l
  induction l with
  | nil => rfl
  | cons i rest ih =>
    simp [frameLoop, List.filterMap_cons, RenderEvent.shotIndex, ih]

/-- Every event of the loop body is a seek or a screenshot. -/
theorem frameLoop_mem (frames_dir : String) :
    ∀ (l : List ℕ) (e : RenderEvent), e ∈ frameLoop frames_dir l →
      e.isGoto = false ∧ e.isSetSubtitles = false ∧
        e ≠ RenderEvent.waitTimeout 500 := by
  intro l
  induction l with
  | nil => intro e he; cases he
  | cons i rest ih =>
    intro e he
    simp only [frameLoop, List.mem_cons] at he
    rcases he with rfl | rfl | he
    · exact ⟨rfl, rfl, by simp⟩
    · exact ⟨rfl, rfl, by simp⟩
    · exact ih e he

theorem frameLoop_no_goto (frames_dir : String) (l : List ℕ) :
    (frameLoop frames_dir l).filter (fun e => e.isGoto) = [] :=
  List.filter_eq_nil_iff.mpr fun e he => by
    simp [(frameLoop_mem frames_dir l e he).1]

theorem frameLoop_no_setSubtitles (frames_dir : String) (l : List ℕ) :
    (frameLoop frames_dir l).filter (fun e => e.isSetSubtitles) = [] :=
  List.filter_eq_nil_iff.mpr fun e he => by
    simp [(frameLoop_mem frames_dir l e he).2.1]

/-- In the loop body followed by a screenshot-free tail, every screenshot sits
at a position `k ≥ 1` and is immediately preceded by the seek to its own
timestamp. -/
theorem frameLoop_adjacent (frames_dir : String) :
    ∀ (l : List ℕ) (tail : List RenderEvent),
      (∀ e ∈ tail, RenderEvent.shotIndex e = none) →
      ∀ (k i : ℕ) (p : String),
        (frameLoop frames_dir l ++ tail).getD k RenderEvent.browserClose =
          RenderEvent.screenshot i p →
        1 ≤ k ∧
          (frameLoop frames_dir l ++ tail).getD (k - 1) RenderEvent.browserClose =
            RenderEvent.seek ((i : ℚ) / 30) := by
  intro l
  induction l with
  | nil =>
    intro tail htail k i p hk
    exfalso
    simp only [frameLoop, List.nil_append] at hk
    by_cases hlen : k < tail.length
    · have hmem : tail.getD k RenderEvent.browserClose ∈ tail := by
        rw [List.getD_eq_getElem tail _ hlen]
        exact List.getElem_mem hlen
      have := htail _ hmem
      rw [hk] at this
      simp [RenderEvent.shotIndex] at this
    · rw [List.getD_eq_default tail _ (by omega)] at hk
      exact absurd hk (by simp)
  | cons j rest ih =>
    intro tail htail k i p hk
    match k with
    | 0 =>
      exfalso
      simp [frameLoop, List.getD_cons_zero] at hk
    | 1 =>
      simp only [frameLoop, List.cons_append, List.getD_cons_succ,
        List.getD_cons_zero, RenderEvent.screenshot.injEq] at hk
      obtain ⟨rfl, rfl⟩ := hk
      exact ⟨le_refl 1, rfl⟩
    | Nat.succ (Nat.succ k') =>
      simp only [frameLoop, List.cons_append, List.getD_cons_succ] at hk
      obtain ⟨h1, hrec⟩ := ih tail htail k' i p hk
      refine ⟨by omega, ?_⟩
      have hk'eq : k' + 1 + 1 - 1 = (k' - 1) + 1 + 1 := by omega
      rw [hk'eq]
      simpa [frameLoop, List.cons_append, List.getD_cons_succ] using hrec

end RenderLemmas

open RenderLemmas in
/-- C3: for every positive duration (at the fixed `fps = 30`), the renderer
produces exactly `⌊duration * fps⌋` frames, whose indices are gap-free and
strictly increasing from `0`, whose timestamps equal `index / fps`, and an
empty caption timeline does not reduce the frame count. -/
theorem render_frame_count (frames_dir : String) (duration : ℚ)
    (wt : List WordTiming) (hd : 0 < duration) :
    ((render_scene_frames frames_dir duration wt).length : ℤ) = ⌊duration * 30⌋ ∧
    (render_scene_frames frames_dir duration wt).map Frame.index =
      List.range (render_scene_frames frames_dir duration wt).length ∧
    (∀ f ∈ render_scene_frames frames_dir duration wt,
      f.timestamp = (f.index : ℚ) / 30) ∧
    (render_scene_frames frames_dir duration wt).length =
      (render_scene_frames frames_dir duration []).length := by
  refine ⟨?_, ?_, ?_, rfl⟩
  · rw [render_scene_frames, List.length_map, List.length_range]
    exact total_frames_eq_floor (le_of_lt hd)
  · simp [render_scene_frames, List.map_map, Function.comp_def]
  · intro f hf
    obtain ⟨i, _, rfl⟩ := List.mem_map.mp hf
    rfl

/-- C3 witness: at duration `4` s the renderer produces `⌊4 * 30⌋ = 120`
frames whether or not any captions were injected. -/
theorem render_frame_count_witness :
    (0 : ℚ) < 4 ∧
    (((render_scene_frames "frames" 4 [⟨"hi", 0, 4⟩]).length : ℤ) = ⌊(4 : ℚ) * 30⌋ ∧
     (render_scene_frames "frames" 4 [⟨"hi", 0, 4⟩]).map Frame.index =
       List.range (render_scene_frames "frames" 4 [⟨"hi", 0, 4⟩]).length ∧
     (∀ f ∈ render_scene_frames "frames" 4 [⟨"hi", 0, 4⟩],
       f.timestamp = (f.index : ℚ) / 30) ∧
     (render_scene_frames "frames" 4 [⟨"hi", 0, 4⟩]).length =
       (render_scene_frames "frames" 4 []).length) ∧
    (render_scene_frames "frames" 4 []).length = 120 := by
  refine ⟨by norm_num, render_frame_count "frames" 4 [⟨"hi", 0, 4⟩] (by norm_num), ?_⟩
  rw [render_scene_frames, List.length_map, List.length_range, total_frames, pyInt]
  norm_num
  rfl

open RenderLemmas in
/-- C4: on every render the template is loaded exactly once (as the very
first command), the full caption timeline is injected as one batch, the
unconditional warm-up pause precedes every seek, the screenshots are taken
exactly once per frame index in strictly increasing order `0, 1, …`, each
screenshot is immediately preceded by the seek of its own timestamp
`i / fps` (and, the events being a strictly sequential awaited list, no
capture begins before the previous one completed), and the command
sequence never asks the surface to advance on wall-clock time. -/
theorem render_protocol (frames_dir url : String) (duration : ℚ)
    (wt : List WordTiming) :
    (render_scene_events frames_dir url duration wt).head? =
        some (RenderEvent.goto url) ∧
    ((render_scene_events frames_dir url duration wt).filter
        (fun e => e.isGoto)).length = 1 ∧
    (render_scene_events frames_dir url duration wt).filter
        (fun e => e.isSetSubtitles) = [RenderEvent.setSubtitles wt] ∧
    (render_scene_events frames_dir url duration wt).getD 2
        RenderEvent.browserClose = RenderEvent.waitTimeout 500 ∧
    (∀ k, ((render_scene_events frames_dir url duration wt).getD k
        RenderEvent.browserClose).isSeek = true → 3 ≤ k) ∧
    (render_scene_events frames_dir url duration wt).filterMap
        RenderEvent.shotIndex = List.range (total_frames duration) ∧
    (∀ k i p, (render_scene_events frames_dir url duration wt).getD k
          RenderEvent.browserClose = RenderEvent.screenshot i p →
      (render_scene_events frames_dir url duration wt).getD (k - 1)
          RenderEvent.browserClose = RenderEvent.seek ((i : ℚ) / 30)) ∧
    (render_scene_events frames_dir url duration wt).getLast? =
        some RenderEvent.browserClose := by
  refine ⟨rfl, ?_, ?_, rfl, ?_, ?_, ?_, ?_⟩
  · simp [render_scene_events, List.filter_cons, List.filter_append,
      RenderEvent.isGoto, frameLoop_no_goto]
    exact fun a ha => (frameLoop_mem frames_dir _ a ha).1
  · simp [render_scene_events, List.filter_cons, List.filter_append,
      RenderEvent.isSetSubtitles, frameLoop_no_setSubtitles]
    exact fun a ha => (frameLoop_mem frames_dir _ a ha).2.1
  · intro k h
    match k with
    | 0 => simp [render_scene_events, RenderEvent.isSeek] at h
    | 1 => simp [render_scene_events, RenderEvent.isSeek] at h
    | 2 => simp [render_scene_events, RenderEvent.isSeek] at h
    | (n + 3) => omega
  · simp [render_scene_events, List.filterMap_cons, RenderEvent.shotIndex,
      List.filterMap_append, frameLoop_filterMap_shot]
  · intro k i p hk
    match k with
    | 0 => exact absurd hk (by simp [render_scene_events])
    | 1 => exact absurd hk (by simp [render_scene_events])
    | 2 => exact absurd hk (by simp [render_scene_events])
    | (k' + 3) =>
      simp only [render_scene_events, List.getD_cons_succ] at hk
      obtain ⟨h1, hrec⟩ := frameLoop_adjacent frames_dir
        (List.range (total_frames duration)) [RenderEvent.browserClose]
        (by intro e he; simp at he; simp [he, RenderEvent.shotIndex])
        k' i p hk
      have hksub : k' + 3 - 1 = (k' - 1) + 3 := by omega
      rw [hksub]
      simpa [render_scene_events, List.getD_cons_succ] using hrec
  · have : render_scene_events frames_dir url duration wt =
        (RenderEvent.goto url :: RenderEvent.setSubtitles wt ::
          RenderEvent.waitTimeout 500 ::
          frameLoop frames_dir (List.range (total_frames duration))) ++
          [RenderEvent.browserClose] := by
      simp [render_scene_events]
    rw [this, List.getLast?_concat]

/-- C4 witness: on the concrete render with duration `1/30` s (one frame) the
protocol instance yields: the screenshot of frame `0` sits right after the
seek to timestamp `0 / 30`. -/
theorem render_protocol_witness :
    (render_scene_events "f" "u" (1/30) []).getD 4 RenderEvent.browserClose =
      RenderEvent.screenshot 0 (framePath "f" 0) ∧
    (render_scene_events "f" "u" (1/30) []).getD 3 RenderEvent.browserClose =
      RenderEvent.seek (((0 : ℕ) : ℚ) / 30) := by
  have h1 : total_frames ((30 : ℚ)⁻¹) = 1 := by
    rw [total_frames, pyInt]
    norm_num
  have hshot : (render_scene_events "f" "u" (1/30) []).getD 4
      RenderEvent.browserClose = RenderEvent.screenshot 0 (framePath "f" 0) := by
    simp [render_scene_events, h1, frameLoop, List.range_succ, List.getD]
  exact ⟨hshot,
    (render_protocol "f" "u" (1/30) []).2.2.2.2.2.2.1 4 0 (framePath "f" 0) hshot⟩

/-! ## Failure semantics, resources, and assembly:
`_render_scene` / `create_video` / `run_pipeline` -/

/-- The points where the Playwright interaction of
`VideoGenerator._render_scene` can raise in one concrete run: the
`chromium.launch`, the `page.goto` template load, or a `page.screenshot` at a
given frame index.  All-`false`/`none` models a failure-free run. -/
structure RenderOracle where
  launchFails : Bool
  gotoFails : Bool
  captureFailsAt : Option ℕ
deriving Repr, DecidableEq

/-- Resource acquisition/release events of one `_render_scene` call.
`pwStop` is the exit of the `async with async_playwright()` scope: Playwright
stops the driver and terminates every browser it launched, on normal exit and
on exception alike; `browserClose` is the explicit `await browser.close()`
reached only on the success path. -/
inductive ResEvent where
  | pwStart
  | browserLaunch
  | newPage
  | browserClose
  | pwStop
deriving Repr, DecidableEq

/-- The resource trace of one `_render_scene` call: the `async with` block is
entered unconditionally, a fresh browser and a fresh page are launched inside
it, and the scope exit runs on every path — success or exception. -/
def render_scene_resources (duration : ℚ) (o : RenderOracle) : List ResEvent :=
  if o.launchFails then [ResEvent.pwStart, ResEvent.pwStop]
  else if o.gotoFails then
    [ResEvent.pwStart, ResEvent.browserLaunch, ResEvent.newPage, ResEvent.pwStop]
  else
    match o.captureFailsAt with
    | some j =>
      if j < total_frames duration then
        [ResEvent.pwStart, ResEvent.browserLaunch, ResEvent.newPage, ResEvent.pwStop]
      else
        [ResEvent.pwStart, ResEvent.browserLaunch, ResEvent.newPage,
          ResEvent.browserClose, ResEvent.pwStop]
    | none =>
      [ResEvent.pwStart, ResEvent.browserLaunch, ResEvent.newPage,
        ResEvent.browserClose, ResEvent.pwStop]

/-- The value `_render_scene` delivers to its caller: the list of frame paths
on success, or the propagated Playwright exception.  A screenshot failure at
a frame index inside the range aborts the loop; the paths collected for the
frames before it are NOT returned — the exception propagates instead. -/
def render_scene_result (frames_dir : String) (duration : ℚ) (o : RenderOracle) :
    Except String (List String) :=
  if o.launchFails then Except.error "chromium launch failed"
  else if o.gotoFails then Except.error "page goto failed"
  else
    match o.captureFailsAt with
    | some j =>
      if j < total_frames duration then Except.error "page screenshot failed"
      else Except.ok ((List.range (total_frames duration)).map (framePath frames_dir))
    | none => Except.ok ((List.range (total_frames duration)).map (framePath frames_dir))

/-- A filesystem effect of the pipeline. -/
inductive FSEffect where
  | mkdir (path : String)
  | writeFile (path : String)
  | deleteFile (path : String)
deriving Repr, DecidableEq

def FSEffect.isMkdir : FSEffect → Bool
  | .mkdir _ => true
  | _ => false

def FSEffect.isWrite : FSEffect → Bool
  | .writeFile _ => true
  | _ => false

def FSEffect.isDelete : FSEffect → Bool
  | .deleteFile _ => true
  | _ => false

/-- The filesystem effects of one `_render_scene` call:
`os.makedirs(frames_dir, exist_ok=True)` first, then one PNG write per
completed screenshot.  A capture failure at frame `j` leaves exactly the
frames `0 … j-1` on disk as unpublished temporary artifacts. -/
def render_scene_fs (frames_dir : String) (duration : ℚ) (o : RenderOracle) :
    List FSEffect :=
  FSEffect.mkdir frames_dir ::
    (if o.launchFails then []
     else if o.gotoFails then []
     else
       match o.captureFailsAt with
       | some j =>
         if j < total_frames duration then
           (List.range j).map (fun i => FSEffect.writeFile (framePath frames_dir i))
         else
           (List.range (total_frames duration)).map
             (fun i => FSEffect.writeFile (framePath frames_dir i))
       | none =>
         (List.range (total_frames duration)).map
           (fun i => FSEffect.writeFile (framePath frames_dir i)))

/-- The failure points of `VideoGenerator.create_video` around the render:
`AudioFileClip(audio_path)` raising, any render failure, or
`write_videofile` raising. -/
structure VideoOracle where
  audioLoadFails : Bool
  render : RenderOracle
  writeFails : Bool
deriving Repr, DecidableEq

/-- `VideoGenerator.create_video`: load the audio (may raise), render the
frames via `_render_scene` (exceptions propagate to here), return `None` on
an empty frame list, else assemble and write the file.  The whole body sits
in `try/except Exception`, which logs the error and returns `None`, so every
internal exception becomes the same `none` result and no exception escapes. -/
def create_video_model (frames_dir : String) (duration : ℚ) (o : VideoOracle)
    (output_path : String) : Option String :=
  if o.audioLoadFails then none
  else
    match render_scene_result frames_dir duration o.render with
    | Except.error _ => none
    | Except.ok frames =>
      if frames.isEmpty then none
      else if o.writeFails then none
      else some output_path

/-- The assembly configuration `create_video` hands to MoviePy on a
successful render: `ImageSequenceClip(frames, fps=30)`,
`.set_audio(AudioFileClip(audio_path))` (the audio is placed as the sole
audio stream at clip time 0), and
`write_videofile(output_path, fps=30, codec="libx264", audio_codec="aac")`. -/
structure AssembleCall where
  frames : List String
  fps : ℕ
  audio_path : String
  audioStart : ℚ
  codec : String
  audio_codec : String
  output_path : String
deriving Repr, DecidableEq

def assemble_call (frames : List String) (audio_path output_path : String) :
    AssembleCall :=
  ⟨frames, 30, audio_path, 0, "libx264", "aac", output_path⟩

/-- MoviePy `ImageSequenceClip` semantics with a fixed `fps`: input frame `i`
is displayed during `[i/fps, (i+1)/fps)`, so the frame visible at time `t` is
`frames[int(t * fps)]` — no dropping, interpolation, or reordering. -/
def videoFrameAt (c : AssembleCall) (t : ℚ) : Option String :=
  c.frames[(pyInt (t * (c.fps : ℚ))).toNat]?

/-- MoviePy `ImageSequenceClip` duration: `N / fps` for `N` input frames. -/
def outputDuration (c : AssembleCall) : ℚ :=
  (c.frames.length : ℚ) / (c.fps : ℚ)

/-- Filesystem effects of the assembly step alone (`write_videofile`): it
writes the one output file at the caller-supplied path; it creates no
directories and deletes neither the frames nor the audio. -/
def assemble_effects (output_path : String) : List FSEffect :=
  [FSEffect.writeFile output_path]

/-- The output-file handling of `run_pipeline` (`main.py`): the caller
creates the `outputs` directory (`os.makedirs("outputs", exist_ok=True)`)
and then invokes `create_video` with
`output_path = f"outputs/NewsShort_{timestamp}.mp4"`, whose assembly step
writes that file. -/
def run_pipeline_output_effects (timestamp : String) : List FSEffect :=
  FSEffect.mkdir "outputs" ::
    assemble_effects ("outputs/NewsShort_" ++ timestamp ++ ".mp4")

/-- C9: every `_render_scene` call opens its own Playwright scope (the trace
starts with `pwStart`), acquires at most one fresh browser and one fresh page
inside it — exactly one of each whenever the launch succeeds — and the scope
exit (`pwStop`), which terminates the driver and any browser it launched,
runs exactly once and is the last event on every exit path, success or
exception.  Since each call's trace opens with its own acquisition and ends
with its own release, no surface instance survives into, or is reused by,
another call. -/
theorem render_resource_bracket (duration : ℚ) (o : RenderOracle) :
    (render_scene_resources duration o).head? = some ResEvent.pwStart ∧
    (render_scene_resources duration o).getLast? = some ResEvent.pwStop ∧
    (render_scene_resources duration o).count ResEvent.pwStart = 1 ∧
    (render_scene_resources duration o).count ResEvent.pwStop = 1 ∧
    (render_scene_resources duration o).count ResEvent.browserLaunch ≤ 1 ∧
    (render_scene_resources duration o).count ResEvent.newPage ≤ 1 ∧
    (o.launchFails = false →
      (render_scene_resources duration o).count ResEvent.browserLaunch = 1 ∧
      (render_scene_resources duration o).count ResEvent.newPage = 1) := by
  obtain ⟨lf, gf, cf⟩ := o
  cases lf <;> cases gf <;> rcases cf with _ | j
  all_goals simp only [render_scene_resources, RenderOracle.launchFails,
    RenderOracle.gotoFails, RenderOracle.captureFailsAt, Bool.false_eq_true,
    if_false, if_true, Bool.true_eq_false]
  all_goals first
    | decide
    | (split <;> decide)

/-- C9 witness: the failure-free render acquires exactly one browser and one
page. -/
theorem render_resource_bracket_witness :
    (render_scene_resources 2 ⟨false, false, none⟩).count ResEvent.browserLaunch = 1 ∧
    (render_scene_resources 2 ⟨false, false, none⟩).count ResEvent.newPage = 1 :=
  (render_resource_bracket 2 ⟨false, false, none⟩).2.2.2.2.2.2 rfl

/-- C6 counterexample: a screenshot failure at frame 57 of the 120-frame
4-second render and one at frame 3 produce the very same observable outcome
— `_render_scene` propagates the same exception value and `create_video`
returns `None` — so the failure is NOT reported as a `RenderFailure` carrying
the failing frame index: nothing the caller receives distinguishes frame 57
from frame 3. -/
theorem render_failure_unreported :
    create_video_model "f" 4 ⟨false, ⟨false, false, some 57⟩, false⟩ "out.mp4" = none ∧
    create_video_model "f" 4 ⟨false, ⟨false, false, some 3⟩, false⟩ "out.mp4" = none ∧
    render_scene_result "f" 4 ⟨false, false, some 57⟩ =
      render_scene_result "f" 4 ⟨false, false, some 3⟩ := by
  have h120 : total_frames (4 : ℚ) = 120 := by
    rw [total_frames, pyInt]
    norm_num
    rfl
  refine ⟨?_, ?_, ?_⟩ <;>
    simp [create_video_model, render_scene_result, h120]

/-- C6 (amended): a launch failure, a template-load failure, or a screenshot
failure at any in-range frame aborts the whole render: `_render_scene`
propagates the exception (the partial frame list is never returned),
`create_video` catches it and returns `None`, so no video output is produced
and there is no partial or resumable render; on a capture failure at frame
`j` only the rasters for frames `0 … j-1` exist on disk, as unpublished
temporary artifacts.  The caller, however, receives only the bare `None`: no
typed `RenderFailure` and no failing frame index. -/
theorem render_failure_aborts (frames_dir : String) (duration : ℚ)
    (o : VideoOracle) (out : String)
    (hfail : o.render.launchFails = true ∨ o.render.gotoFails = true ∨
      (∃ j, o.render.captureFailsAt = some j ∧ j < total_frames duration)) :
    (∃ e, render_scene_result frames_dir duration o.render = Except.error e) ∧
    create_video_model frames_dir duration o out = none ∧
    (∀ j, o.render.captureFailsAt = some j → j < total_frames duration →
      o.render.launchFails = false → o.render.gotoFails = false →
      render_scene_fs frames_dir duration o.render =
        FSEffect.mkdir frames_dir ::
          (List.range j).map (fun i => FSEffect.writeFile (framePath frames_dir i))) := by
  have herr : ∃ e, render_scene_result frames_dir duration o.render =
      Except.error e := by
    cases hlf : o.render.launchFails with
    | true => exact ⟨"chromium launch failed", by simp [render_scene_result, hlf]⟩
    | false =>
      cases hgf : o.render.gotoFails with
      | true => exact ⟨"page goto failed", by simp [render_scene_result, hlf, hgf]⟩
      | false =>
        rcases hfail with h | h | ⟨j, hj, hlt⟩
        · rw [hlf] at h; cases h
        · rw [hgf] at h; cases h
        · exact ⟨"page screenshot failed",
            by simp [render_scene_result, hlf, hgf, hj, hlt]⟩
  obtain ⟨e, he⟩ := herr
  refine ⟨⟨e, he⟩, ?_, ?_⟩
  · cases haf : o.audioLoadFails <;> simp [create_video_model, haf, he]
  · intro j hj hlt hlf hgf
    simp [render_scene_fs, hlf, hgf, hj, hlt]

/-- C6 witness for the amended theorem: the Scenario C instance — capture
fails on frame 57 of the 120-frame render — aborts with `None` and leaves
exactly frames 0–56 as unpublished temporaries. -/
theorem render_failure_aborts_witness :
    ((⟨false, ⟨false, false, some 57⟩, false⟩ : VideoOracle).render.launchFails = true ∨
      (⟨false, ⟨false, false, some 57⟩, false⟩ : VideoOracle).render.gotoFails = true ∨
      (∃ j, (⟨false, ⟨false, false, some 57⟩, false⟩ : VideoOracle).render.captureFailsAt
          = some j ∧ j < total_frames 4)) ∧
    ((∃ e, render_scene_result "f" 4
        (⟨false, ⟨false, false, some 57⟩, false⟩ : VideoOracle).render =
        Except.error e) ∧
     create_video_model "f" 4 ⟨false, ⟨false, false, some 57⟩, false⟩ "out.mp4" = none ∧
     (∀ j, (⟨false, ⟨false, false, some 57⟩, false⟩ : VideoOracle).render.captureFailsAt
          = some j → j < total_frames 4 →
        (⟨false, ⟨false, false, some 57⟩, false⟩ : VideoOracle).render.launchFails = false →
        (⟨false, ⟨false, false, some 57⟩, false⟩ : VideoOracle).render.gotoFails = false →
        render_scene_fs "f" 4 (⟨false, ⟨false, false, some 57⟩, false⟩ : VideoOracle).render =
          FSEffect.mkdir "f" ::
            (List.range j).map (fun i => FSEffect.writeFile (framePath "f" i)))) := by
  have h120 : total_frames (4 : ℚ) = 120 := by
    rw [total_frames, pyInt]
    norm_num
    rfl
  have hfail : (⟨false, ⟨false, false, some 57⟩, false⟩ : VideoOracle).render.launchFails
        = true ∨
      (⟨false, ⟨false, false, some 57⟩, false⟩ : VideoOracle).render.gotoFails = true ∨
      (∃ j, (⟨false, ⟨false, false, some 57⟩, false⟩ : VideoOracle).render.captureFailsAt
          = some j ∧ j < total_frames 4) := by
    right; right
    exact ⟨57, rfl, by rw [h120]; norm_num⟩
  exact ⟨hfail, render_failure_aborts "f" 4 ⟨false, ⟨false, false, some 57⟩, false⟩
    "out.mp4" hfail⟩

/-- C10: `create_video` returns either the given output path or `None`, and
every internal failure — audio loading, any render failure, the final
assembly/write — yields the same `None`, so the entry point never propagates
an exception and the distinct failure causes are not distinguishable from the
return value alone. -/
theorem create_video_total (frames_dir : String) (duration : ℚ)
    (o : VideoOracle) (out : String) :
    (create_video_model frames_dir duration o out = some out ∨
      create_video_model frames_dir duration o out = none) ∧
    (o.audioLoadFails = true → create_video_model frames_dir duration o out = none) ∧
    (∀ e, render_scene_result frames_dir duration o.render = Except.error e →
      create_video_model frames_dir duration o out = none) ∧
    (o.writeFails = true → create_video_model frames_dir duration o out = none) := by
  refine ⟨?_, ?_, ?_, ?_⟩
  · cases haf : o.audioLoadFails with
    | true => right; simp [create_video_model, haf]
    | false =>
      cases hr : render_scene_result frames_dir duration o.render with
      | error e => right; simp [create_video_model, haf, hr]
      | ok frames =>
        by_cases hemp : frames.isEmpty
        · right; simp [create_video_model, haf, hr, hemp]
        · cases hwf : o.writeFails with
          | true => right; simp [create_video_model, haf, hr, hemp, hwf]
          | false => left; simp [create_video_model, haf, hr, hemp, hwf]
  · intro haf
    simp [create_video_model, haf]
  · intro e hr
    cases haf : o.audioLoadFails <;> simp [create_video_model, haf, hr]
  · intro hwf
    cases haf : o.audioLoadFails with
    | true => simp [create_video_model, haf]
    | false =>
      cases hr : render_scene_result frames_dir duration o.render with
      | error e => simp [create_video_model, haf, hr]
      | ok frames =>
        by_cases hemp : frames.isEmpty <;>
          simp [create_video_model, haf, hr, hemp, hwf]

/-- C10 witness: an audio-load failure returns `None`. -/
theorem create_video_total_witness :
    (⟨true, ⟨false, false, none⟩, false⟩ : VideoOracle).audioLoadFails = true ∧
    create_video_model "f" 2 ⟨true, ⟨false, false, none⟩, false⟩ "out.mp4" = none :=
  ⟨rfl, (create_video_total "f" 2 ⟨true, ⟨false, false, none⟩, false⟩ "out.mp4").2.1 rfl⟩

open RenderLemmas in
/-- C7: for a non-empty frame sequence the assembler sequences exactly the
given frames at exactly 30 fps — the frame visible at time slot `i / fps` is
input frame `i`, for every index, so nothing is dropped, interpolated, or
reordered — attaches the given audio track as the sole audio stream at clip
time 0, encodes H.264 (`libx264`) video with AAC audio, and the output
duration is `N / fps` for `N` frames. -/
theorem assemble_spec (frames : List String) (audio_path output_path : String)
    (hne : frames ≠ []) :
    (assemble_call frames audio_path output_path).fps = 30 ∧
    (assemble_call frames audio_path output_path).codec = "libx264" ∧
    (assemble_call frames audio_path output_path).audio_codec = "aac" ∧
    (assemble_call frames audio_path output_path).audio_path = audio_path ∧
    (assemble_call frames audio_path output_path).audioStart = 0 ∧
    (assemble_call frames audio_path output_path).output_path = output_path ∧
    (assemble_call frames audio_path output_path).frames = frames ∧
    (∀ i, i < frames.length →
      videoFrameAt (assemble_call frames audio_path output_path)
        ((i : ℚ) / 30) = frames[i]?) ∧
    outputDuration (assemble_call frames audio_path output_path) =
      (frames.length : ℚ) / 30 ∧
    0 < frames.length := by
  refine ⟨rfl, rfl, rfl, rfl, rfl, rfl, rfl, ?_, ?_, List.length_pos.mpr hne⟩
  · intro i hi
    unfold videoFrameAt assemble_call
    have harg : ((i : ℚ) / 30) * (((30 : ℕ) : ℚ)) = (i : ℚ) := by
      push_cast
      field_simp
    simp only [harg]
    rw [pyInt_of_nonneg (by positivity), Int.floor_natCast]
    simp
  · unfold outputDuration assemble_call
    norm_num

/-- C7 witness: a two-frame sequence at 30 fps shows frame 1 at time `1/30`
and has duration `2/30` s. -/
theorem assemble_spec_witness :
    (["a.png", "b.png"] : List String) ≠ [] ∧
    ((assemble_call ["a.png", "b.png"] "speech.mp3" "o.mp4").fps = 30 ∧
     (assemble_call ["a.png", "b.png"] "speech.mp3" "o.mp4").codec = "libx264" ∧
     (assemble_call ["a.png", "b.png"] "speech.mp3" "o.mp4").audio_codec = "aac" ∧
     (assemble_call ["a.png", "b.png"] "speech.mp3" "o.mp4").audio_path = "speech.mp3" ∧
     (assemble_call ["a.png", "b.png"] "speech.mp3" "o.mp4").audioStart = 0 ∧
     (assemble_call ["a.png", "b.png"] "speech.mp3" "o.mp4").output_path = "o.mp4" ∧
     (assemble_call ["a.png", "b.png"] "speech.mp3" "o.mp4").frames = ["a.png", "b.png"] ∧
     (∀ i, i < (["a.png", "b.png"] : List String).length →
       videoFrameAt (assemble_call ["a.png", "b.png"] "speech.mp3" "o.mp4")
         ((i : ℚ) / 30) = (["a.png", "b.png"] : List String)[i]?) ∧
     outputDuration (assemble_call ["a.png", "b.png"] "speech.mp3" "o.mp4") =
       ((["a.png", "b.png"] : List String).length : ℚ) / 30 ∧
     0 < (["a.png", "b.png"] : List String).length) :=
  ⟨by decide, assemble_spec ["a.png", "b.png"] "speech.mp3" "o.mp4" (by decide)⟩

/-- C8 counterexample: assembling to `outputs/NewsShort_x.mp4` performs no
directory creation at all — the assembly writes the file and nothing else —
so the assembler does not create absent parent directories itself (in the
pipeline it is the caller, `run_pipeline`, that pre-creates `outputs/`). -/
theorem assemble_no_mkdir :
    assemble_effects "outputs/NewsShort_x.mp4" =
      [FSEffect.writeFile "outputs/NewsShort_x.mp4"] ∧
    (assemble_effects "outputs/NewsShort_x.mp4").filter
      (fun e => e.isMkdir) = [] := by
  exact ⟨rfl, rfl⟩

/-- C8 (amended): on every successful run the assembly step performs exactly
one file write, at the caller-specified `output_path`, creates no
directories, and deletes nothing — in particular neither any frame raster
nor the audio file; in the pipeline the parent directory is created by the
caller: `run_pipeline`'s effect sequence runs `mkdir "outputs"` strictly
before the output-file write. -/
theorem assemble_effects_spec (output_path timestamp frame audio : String) :
    ((assemble_effects output_path).filter (fun e => e.isWrite)).length = 1 ∧
    FSEffect.writeFile output_path ∈ assemble_effects output_path ∧
    FSEffect.deleteFile frame ∉ assemble_effects output_path ∧
    FSEffect.deleteFile audio ∉ assemble_effects output_path ∧
    (assemble_effects output_path).filter (fun e => e.isMkdir) = [] ∧
    (run_pipeline_output_effects timestamp).head? =
      some (FSEffect.mkdir "outputs") ∧
    (run_pipeline_output_effects timestamp).getD 1 (FSEffect.mkdir "") =
      FSEffect.writeFile ("outputs/NewsShort_" ++ timestamp ++ ".mp4") := by
  refine ⟨rfl, ?_, ?_, ?_, rfl, rfl, rfl⟩
  · simp [assemble_effects]
  · simp [assemble_effects]
  · simp [assemble_effects]
